import Mathlib

/-!
Shallow embedding of the forecast cache / async job subsystem of the
sales-forecast platform (Go service `main.go`, schema `init.sql`), together
with proofs about its read path, job ledger state machine, cancellation race,
worker processing, and cache merge.

Modelling conventions:
* SQL rows become Lean structures; the `live_forecasts` table and the
  `async_forecast_jobs` table become lists of rows.
* Calendar dates are represented by `Nat` (a date ordinal); only their total
  order is relevant to the code under study.
* SQL `numeric` / Go `float64` forecast values are represented by `Int`;
  the code never computes with them, it only stores and returns them.
* The JSON `request_params` blob stores only a flat object whose values are
  numbers or strings in this program, so it is embedded as an association
  list of a small JSON value type (`JVal`).  Go's `encoding/json` decodes
  every JSON number to `float64`; the enqueue path only ever writes integers,
  which round-trip exactly, so numbers are embedded as `Int`.
* Each HTTP handler becomes a function from the database state (plus request
  parameters, the generated UUID, and the clock) to a response value and a
  new state; `db.Exec`/`db.Query` round trips are assumed to succeed except
  for the unique-constraint violation of the cache batch write, which the
  code explicitly handles.
-/

namespace SalesForecast

/-! ## Data model -/

/-- State of a row of `async_forecast_jobs` (`status` column). -/
inductive JobStatus where
  | PENDING
  | RUNNING
  | COMPLETED
  | FAILED
  | CANCELLED
deriving DecidableEq, Repr

/-- Small JSON value type: the fragment of JSON exercised by
`request_params` (flat objects of numbers and strings; `other` stands for
any other JSON value such as a boolean, null, array or nested object). -/
inductive JVal where
  | num (n : Int)
  | str (s : String)
  | other
deriving DecidableEq, Repr

/-- Flat JSON object, as stored in the `request_params` column. -/
abbrev Params := List (String × JVal)

/-- Row of the `async_forecast_jobs` table. -/
structure Job where
  jobId : String
  categoryId : String
  requestParams : Params
  status : JobStatus
  errorMessage : Option String
  createdAt : Nat
  updatedAt : Nat
deriving DecidableEq, Repr

/-- Row predicate of the single-row queries `... WHERE job_id = $1`. -/
def idIs (jobID : String) (job : Job) : Bool := job.jobId == jobID

/-- Row of the `live_forecasts` table (the forecast cache).  The `serial`
primary key is omitted: nothing in the code reads it. -/
structure ForecastRow where
  modelVersionId : Int
  categoryId : String
  forecastDate : Nat
  predictedSales : Int
  lowerBound : Int
  upperBound : Int
  granularity : String
deriving DecidableEq, Repr

/-- Body element of the `200` forecast response (Go struct `ForecastPoint`). -/
structure ForecastPoint where
  date : Nat
  predictedSales : Int
  lowerBound : Int
  upperBound : Int
deriving DecidableEq, Repr

/-- Projection of a cache row onto the response struct, as done by the
row-scanning loop of `getForecastHandler`. -/
def ForecastRow.toPoint (r : ForecastRow) : ForecastPoint :=
  { date := r.forecastDate
    predictedSales := r.predictedSales
    lowerBound := r.lowerBound
    upperBound := r.upperBound }

/-- Whole mutable database state: the two tables shared by all components,
plus `inFlight`, the identifiers of jobs claimed by a worker goroutine that
has not yet finished (this is not a table: it models the
`go processJob(...)` goroutines spawned by `jobRunner`). -/
structure SysState where
  cache : List ForecastRow
  jobs : List Job
  inFlight : List String
deriving DecidableEq, Repr

/-! ## JSON request-parameter access -/

/-- First binding of a key in a flat JSON object (Go map lookup; the maps
marshalled by this program never repeat a key). -/
def lookupField (params : Params) (k : String) : Option JVal :=
  (params.find? (fun kv => kv.1 == k)).map (fun kv => kv.2)

/-- Worker-side extraction `params["count"].(float64)`: succeeds only when
the field is present and is a JSON number; `none` models the panic of a
failing type assertion (including the nil-map case of an undecodable blob). -/
def extractCount (params : Params) : Option Int :=
  match lookupField params "count" with
  | some (JVal.num n) => some n
  | _ => none

/-- Worker-side extraction `params["granularity"].(string)`; `none` models
the panic of a failing type assertion. -/
def extractGranularity (params : Params) : Option String :=
  match lookupField params "granularity" with
  | some (JVal.str s) => some s
  | _ => none

/-- Request-parameter object written by the cache-miss branch of
`getForecastHandler`:
`map[string]interface\x7b\x7d{"granularity": horizon, "count": shortfall}`. -/
def enqueueParams (horizon : String) (count : Int) : Params :=
  [("granularity", JVal.str horizon), ("count", JVal.num count)]

/-! ## Cache read -/

/-- Date order on cache rows, the `ORDER BY forecast_date` of the read query. -/
def dateLe (a b : ForecastRow) : Prop :=
  a.forecastDate ≤ b.forecastDate

instance : DecidableRel dateLe := fun a b => Nat.decLe a.forecastDate b.forecastDate

instance : IsTotal ForecastRow dateLe :=
  ⟨fun a b => Nat.le_total a.forecastDate b.forecastDate⟩

instance : IsTrans ForecastRow dateLe :=
  ⟨fun _ _ _ h h' => Nat.le_trans h h'⟩

/-- The cache read
`SELECT ... FROM live_forecasts WHERE category_id = $1 AND granularity = $2
ORDER BY forecast_date LIMIT $3`. -/
def queryForecasts (cache : List ForecastRow) (cat gran : String) (lim : Nat) :
    List ForecastRow :=
  (List.insertionSort dateLe
    (cache.filter (fun r => r.categoryId == cat && r.granularity == gran))).take lim

/-! ## Cache read path: getForecastHandler -/

/-- Response of `getForecastHandler`: `ok` is the HTTP 200 body, `accepted`
the 202 body, `badRequest` a 400. -/
inductive ForecastResult where
  | ok (categoryId : String) (forecast : List ForecastPoint)
  | accepted (message : String) (jobId : String)
  | badRequest (error : String)
deriving DecidableEq, Repr

/-- Decimal value of a non-empty all-digit character list. -/
def parseNat (cs : List Char) : Option Nat :=
  match cs with
  | [] => none
  | _ =>
    if cs.all Char.isDigit then
      some (cs.foldl (fun n c => n * 10 + (c.toNat - 48)) 0)
    else none

/-- Embedding of Go `strconv.Atoi` for the `period` query parameter: an
optional sign followed by at least one digit (the range check of 64-bit
`Atoi` is immaterial here: the handler anyway rejects every period outside
`1 ≤ N`, well within range). -/
def atoi (s : String) : Option Int :=
  match s.data with
  | '-' :: rest => (parseNat rest).map (fun n => -(n : Int))
  | '+' :: rest => (parseNat rest).map (fun n => (n : Int))
  | cs => (parseNat cs).map (fun n => (n : Int))

/-- Handler of `GET /forecasts/:category_id` (`getForecastHandler`):
validates `period` and `forecast_horizon`, reads the cache, and on a
shortfall inserts one `PENDING` job whose id is the freshly generated UUID
`newJobId` and whose `created_at`/`updated_at` are the clock value `now`. -/
def getForecastHandler (s : SysState) (categoryID horizon periodStr : String)
    (newJobId : String) (now : Nat) : ForecastResult × SysState :=
  match atoi periodStr with
  | none => (ForecastResult.badRequest "Invalid period parameter.", s)
  | some period =>
    if period ≤ 0 then
      (ForecastResult.badRequest "Invalid period parameter.", s)
    else if horizon != "daily" && horizon != "monthly" && horizon != "yearly" then
      (ForecastResult.badRequest "Invalid forecast horizon.", s)
    else
      let forecasts :=
        (queryForecasts s.cache categoryID horizon period.toNat).map ForecastRow.toPoint
      if period.toNat ≤ forecasts.length then
        (ForecastResult.ok categoryID forecasts, s)
      else
        let job : Job :=
          { jobId := newJobId
            categoryId := categoryID
            requestParams := enqueueParams horizon (period - forecasts.length)
            status := JobStatus.PENDING
            errorMessage := none
            createdAt := now
            updatedAt := now }
        (ForecastResult.accepted
            "Forecast not available in cache. An asynchronous job has been created."
            newJobId,
          { s with jobs := s.jobs ++ [job] })

/-! ## Job status query: getJobStatusHandler -/

/-- Response of `GET /jobs/:job_id` (`getJobStatusHandler`): `notFound` is
the 404, `ok` the 200 body (Go struct `JobStatusResponse`; a NULL
`error_message` is rendered as the empty string by `sql.NullString`). -/
inductive JobQueryResult where
  | notFound
  | ok (jobId categoryId : String) (status : JobStatus) (errorMessage : String)
      (createdAt updatedAt : Nat)
deriving DecidableEq, Repr

/-- Handler of `GET /jobs/:job_id`: a single-row `SELECT ... WHERE job_id = $1`. -/
def getJobStatusHandler (s : SysState) (jobID : String) : JobQueryResult :=
  match s.jobs.find? (idIs jobID) with
  | none => JobQueryResult.notFound
  | some job =>
      JobQueryResult.ok job.jobId job.categoryId job.status
        (job.errorMessage.getD "") job.createdAt job.updatedAt

/-! ## Cancellation handler: cancelJobHandler -/

/-- Response of `POST /jobs/:job_id/cancel` (`cancelJobHandler`): `ok` is the
200, `notFound` the 404, `conflict` the 409 that reports the job's current
status. -/
inductive CancelResult where
  | ok
  | notFound
  | conflict (current : JobStatus)
deriving DecidableEq, Repr

/-- Handler of `POST /jobs/:job_id/cancel`: runs
`UPDATE async_forecast_jobs SET status = CANCELLED, updated_at = NOW()
WHERE job_id = $1 AND status = PENDING`; if zero rows were affected it
re-reads the row to distinguish 404 from 409. -/
def cancelJobHandler (s : SysState) (jobID : String) (now : Nat) :
    CancelResult × SysState :=
  let rowsAffected :=
    (s.jobs.filter
      (fun job => job.jobId == jobID && job.status == JobStatus.PENDING)).length
  if rowsAffected == 0 then
    match s.jobs.find? (idIs jobID) with
    | none => (CancelResult.notFound, s)
    | some job => (CancelResult.conflict job.status, s)
  else
    (CancelResult.ok,
      { s with jobs :=
          s.jobs.map (fun job =>
            if job.jobId == jobID && job.status == JobStatus.PENDING then
              { job with status := JobStatus.CANCELLED, updatedAt := now }
            else job) })

/-! ## Worker loop: jobRunner claim and processJob -/

/-- Job selected by the claim subquery
`SELECT job_id FROM async_forecast_jobs WHERE status = PENDING
ORDER BY created_at LIMIT 1 FOR UPDATE SKIP LOCKED`: the first `PENDING`
row with minimal `created_at` (ties are broken by table order, a
deterministic refinement of the database's arbitrary choice). -/
def claimSelect (jobs : List Job) : Option Job :=
  (jobs.filter (fun job => job.status == JobStatus.PENDING)).foldl
    (fun best job =>
      match best with
      | none => some job
      | some b => if job.createdAt < b.createdAt then some job else best)
    none

/-- One tick of `jobRunner`: the atomic claim
`UPDATE ... SET status = RUNNING, updated_at = NOW() WHERE job_id = (...)
RETURNING job_id, category_id, request_params`.  On success the claimed
job's id joins `inFlight`, modelling the spawned `go processJob(...)`
goroutine that owns it. -/
def jobRunnerTick (s : SysState) (now : Nat) : Option Job × SysState :=
  match claimSelect s.jobs with
  | none => (none, s)
  | some job =>
      (some job,
        { s with
            jobs := s.jobs.map (fun j =>
              if j.jobId == job.jobId then
                { j with status := JobStatus.RUNNING, updatedAt := now }
              else j)
            inFlight := s.inFlight ++ [job.jobId] })

/-- The finalize `UPDATE ... SET status = FAILED, error_message = $1,
updated_at = NOW() WHERE job_id = $2` issued by `processJob`. -/
def failJob (jobs : List Job) (jobID msg : String) (now : Nat) : List Job :=
  jobs.map (fun job =>
    if job.jobId == jobID then
      { job with status := JobStatus.FAILED, errorMessage := some msg,
                 updatedAt := now }
    else job)

/-- The finalize `UPDATE ... SET status = COMPLETED, updated_at = NOW()
WHERE job_id = $1` issued by `processJob`. -/
def completeJob (jobs : List Job) (jobID : String) (now : Nat) : List Job :=
  jobs.map (fun job =>
    if job.jobId == jobID then
      { job with status := JobStatus.COMPLETED, updatedAt := now }
    else job)

/-- Unique key of a `live_forecasts` row:
`unique (category_id, forecast_date, granularity)` from `init.sql`. -/
def tripleKey (r : ForecastRow) : String × Nat × String :=
  (r.categoryId, r.forecastDate, r.granularity)

/-- Decides whether the cache already holds a row with the given unique key. -/
def hasTriple (cache : List ForecastRow) (k : String × Nat × String) : Bool :=
  cache.any (fun r => tripleKey r == k)

/-- The transactional batch write of `processJob`:
`tx.Begin`, `pq.CopyIn("live_forecasts", ...)` of every result point, then
commit.  `COPY` is a plain insert: a point whose unique triple already
exists in the table (or was already inserted earlier in the same batch)
raises a unique-constraint violation, which surfaces at the flushing
`stmt.Exec()`; the code then calls `tx.Rollback()`.  `none` models that
rollback (no row written); `some cache` models the committed state. -/
def mergeBatch : List ForecastRow → List ForecastRow → Option (List ForecastRow)
  | cache, [] => some cache
  | cache, p :: rest =>
      if hasTriple cache (tripleKey p) then none
      else mergeBatch (cache ++ [p]) rest

/-- Batch write with the replace-on-conflict ("upsert") semantics that the
specification ascribes to the Cache Store merge; stated from the spec's
words, for comparison with `mergeBatch`, which is the source's behaviour. -/
def upsertBatch (cache : List ForecastRow) (pts : List ForecastRow) :
    List ForecastRow :=
  pts.foldl
    (fun acc p => acc.filter (fun r => tripleKey r != tripleKey p) ++ [p])
    cache

/-- Literal error message recorded when the generator call returns a
non-success HTTP status (or when a transport error leaves `err.Error()`
unset in the Go code's initialization). -/
def pythonServiceErrMsg : String := "Failed to execute forecast in Python service."

/-- Literal error message recorded when the generator response body does not
decode. -/
def decodeErrMsg : String := "Failed to decode delta forecast response"

/-- Literal error message recorded when the transactional batch write rolls
back. -/
def bulkInsertErrMsg : String := "Failed to bulk insert delta forecast"

/-- Outcome of the worker's call to the downstream generator
(`http.Post` of `/forecasts/:id/generate-delta`): a transport error, or an
HTTP response with a status code and a body that either decodes to a list
of result points or does not (`none`). -/
inductive HttpResult where
  | transportError (msg : String)
  | resp (statusCode : Nat) (body : Option (List ForecastRow))
deriving DecidableEq, Repr

/-- The worker goroutine `processJob`: extracts `count` and `granularity`
from the stored request parameters (a failing type assertion panics the
goroutine, leaving the state untouched — first match arm), then branches on
the generator outcome exactly as the source does: transport error or
non-200 status finalizes the job `FAILED` with the captured message; an
undecodable body finalizes `FAILED`; otherwise the batch write runs, a
rollback finalizes `FAILED` with the bulk-insert message and a commit
finalizes `COMPLETED`. -/
def processJob (s : SysState) (jobID : String) (params : Params)
    (gen : HttpResult) (now : Nat) : SysState :=
  match extractCount params, extractGranularity params with
  | some _, some _ =>
    match gen with
    | HttpResult.transportError msg =>
        { s with jobs := failJob s.jobs jobID msg now }
    | HttpResult.resp statusCode body =>
        if statusCode != 200 then
          { s with jobs := failJob s.jobs jobID pythonServiceErrMsg now }
        else
          match body with
          | none =>
              { s with jobs := failJob s.jobs jobID decodeErrMsg now }
          | some pts =>
              match mergeBatch s.cache pts with
              | none =>
                  { s with jobs := failJob s.jobs jobID bulkInsertErrMsg now }
              | some cache =>
                  { s with cache := cache,
                           jobs := completeJob s.jobs jobID now }
  | _, _ => s

/-! ## The system's operations as a transition system -/

/-- Status of the job with a given id, as observed through the ledger
(`none` when no such row exists). -/
def statusOf (s : SysState) (jobID : String) : Option JobStatus :=
  (s.jobs.find? (idIs jobID)).map Job.status

/-- One operation of the system.  `enqueue` is a forecast request hitting
`getForecastHandler` (with the UUID it would generate and the clock);
`claim` is one `jobRunner` tick; `work` is the execution of the
`processJob` goroutine that owns job `jobID`, with the generator outcome it
observes; `cancel` is a `cancelJobHandler` request. -/
inductive Op where
  | enqueue (categoryID horizon periodStr newJobId : String) (now : Nat)
  | claim (now : Nat)
  | work (jobID : String) (gen : HttpResult) (now : Nat)
  | cancel (jobID : String) (now : Nat)

/-- Effect of one operation on the database state.  The `enqueue` guard
models the global uniqueness of generated UUIDs (a colliding id never
occurs); the `work` guard models that `processJob` runs only for the job a
`jobRunner` tick actually claimed and handed to it, with the
`request_params` returned by that claim (jobs' parameters are never
mutated, so they are read back from the ledger here), and that each claimed
job is processed by exactly one goroutine, exactly once. -/
def step (s : SysState) : Op → SysState
  | Op.enqueue categoryID horizon periodStr newJobId now =>
      if s.jobs.any (fun job => job.jobId == newJobId) then s
      else (getForecastHandler s categoryID horizon periodStr newJobId now).2
  | Op.claim now => (jobRunnerTick s now).2
  | Op.work jobID gen now =>
      if s.inFlight.contains jobID then
        match s.jobs.find? (idIs jobID) with
        | none => s
        | some job =>
            processJob { s with inFlight := s.inFlight.erase jobID }
              jobID job.requestParams gen now
      else s
  | Op.cancel jobID now => (cancelJobHandler s jobID now).2

/-- Run of a sequence of operations. -/
def run (s : SysState) (ops : List Op) : SysState :=
  ops.foldl step s

/-- Ledger invariant maintained by the system: no two spawned goroutines own
the same job, job ids are unique (they are UUIDs), and every in-flight job
exists in the ledger with status `RUNNING`. -/
def Inv (s : SysState) : Prop :=
  s.inFlight.Nodup ∧ (s.jobs.map Job.jobId).Nodup ∧
    ∀ id ∈ s.inFlight,
      ∃ job ∈ s.jobs, job.jobId = id ∧ job.status = JobStatus.RUNNING

instance (s : SysState) : Decidable (Inv s) := by
  unfold Inv
  exact inferInstance

/-- An edge of the job state machine that the specification allows:
`PENDING → RUNNING → \x7bCOMPLETED, FAILED\x7d` and `PENDING → CANCELLED`. -/
def allowedEdge : JobStatus → JobStatus → Bool
  | JobStatus.PENDING, JobStatus.RUNNING => true
  | JobStatus.PENDING, JobStatus.CANCELLED => true
  | JobStatus.RUNNING, JobStatus.COMPLETED => true
  | JobStatus.RUNNING, JobStatus.FAILED => true
  | _, _ => false

/-- Reflexive-transitive closure of `allowedEdge` (computed directly on the
five statuses). -/
def reach : JobStatus → JobStatus → Bool
  | JobStatus.PENDING, _ => true
  | JobStatus.RUNNING, JobStatus.RUNNING => true
  | JobStatus.RUNNING, JobStatus.COMPLETED => true
  | JobStatus.RUNNING, JobStatus.FAILED => true
  | a, b => a == b

/-- Admissible one-step change of one job's observed status: an absent job
stays absent or is created `PENDING`; an existing job keeps its status or
follows an allowed edge (in particular it is never deleted). -/
def statusMove : Option JobStatus → Option JobStatus → Prop
  | none, none => True
  | none, some st => st = JobStatus.PENDING
  | some a, some b => a = b ∨ allowedEdge a b = true
  | some _, none => False

/-- Error message recorded by `processJob` on a failed generator call: the
Go code initializes `errMsg` with a generic text and overwrites it with
`err.Error()` when the failure was a transport error. -/
def capturedErrMsg : HttpResult → String
  | HttpResult.transportError msg => msg
  | HttpResult.resp _ _ => pythonServiceErrMsg

/-! ## Concrete sample data for witnesses -/

/-- Sample cache row (category `CAT_01`, granularity `daily`). -/
def sampleRow (d : Nat) : ForecastRow :=
  { modelVersionId := 1, categoryId := "CAT_01", forecastDate := d,
    predictedSales := 10, lowerBound := 5, upperBound := 15,
    granularity := "daily" }

/-- Sample state: three cached daily points for `CAT_01`, empty ledger. -/
def sampleState : SysState :=
  { cache := [sampleRow 3, sampleRow 1, sampleRow 2], jobs := [], inFlight := [] }

/-- Sample job row builder. -/
def sampleJob (id : String) (st : JobStatus) (created : Nat) : Job :=
  { jobId := id, categoryId := "CAT_01",
    requestParams := enqueueParams "daily" 2,
    status := st, errorMessage := none, createdAt := created, updatedAt := created }

/-- Sample state whose ledger holds one `PENDING` job `j1`. -/
def samplePending : SysState :=
  { cache := [], jobs := [sampleJob "j1" JobStatus.PENDING 0], inFlight := [] }

/-- Sample state whose ledger holds one `RUNNING` job `j1`, owned by a
worker goroutine. -/
def sampleRunning : SysState :=
  { cache := [], jobs := [sampleJob "j1" JobStatus.RUNNING 0], inFlight := ["j1"] }

/-- Cache row whose unique triple clashes with `clashPoint`. -/
def clashRow : ForecastRow :=
  { modelVersionId := 1, categoryId := "CAT_01", forecastDate := 1,
    predictedSales := 10, lowerBound := 5, upperBound := 15,
    granularity := "daily" }

/-- Generated point with the same (category, date, granularity) triple as
`clashRow` but different values. -/
def clashPoint : ForecastRow :=
  { clashRow with modelVersionId := 2, predictedSales := 20 }

/-- Sample `RUNNING`-job state whose cache already holds `clashRow`. -/
def sampleRunningCached : SysState :=
  { cache := [clashRow], jobs := [sampleJob "j1" JobStatus.RUNNING 0],
    inFlight := ["j1"] }

/-! ## Helper lemmas -/

/-- Lookup commutes with a row update that does not touch the `job_id`
column (every `UPDATE` of this program). -/
theorem find?_map_of_id_preserved (jobs : List Job) (jobID : String)
    (f : Job → Job) (hid : ∀ job, (f job).jobId = job.jobId) :
    (jobs.map f).find? (idIs jobID) = (jobs.find? (idIs jobID)).map f := by
  induction jobs with
  | nil => rfl
  | cons a rest ih =>
    by_cases h : idIs jobID a
    · have hf : idIs jobID (f a) := by
        unfold idIs at h ⊢
        rw [hid]
        exact h
      rw [List.map_cons, List.find?_cons_of_pos _ hf, List.find?_cons_of_pos _ h,
        Option.map_some']
    · have hf : ¬ idIs jobID (f a) := by
        unfold idIs at h ⊢
        rw [hid]
        exact h
      rw [List.map_cons, List.find?_cons_of_neg _ hf, List.find?_cons_of_neg _ h, ih]

/-- A row update that does not touch the `job_id` column leaves the list of
job ids (hence its `Nodup`-ness) unchanged. -/
theorem map_jobId_map_of_id_preserved (jobs : List Job) (f : Job → Job)
    (hid : ∀ job, (f job).jobId = job.jobId) :
    (jobs.map f).map Job.jobId = jobs.map Job.jobId := by
  rw [List.map_map]
  exact List.map_congr_left (fun job _ => hid job)

/-- The job selected by the claim subquery is a `PENDING` row of the table. -/
theorem claimSelect_mem (jobs : List Job) (job : Job)
    (h : claimSelect jobs = some job) :
    job ∈ jobs ∧ job.status = JobStatus.PENDING := by
  have aux : ∀ (l : List Job) (acc : Option Job) (b : Job),
      l.foldl
        (fun best j =>
          match best with
          | none => some j
          | some b => if j.createdAt < b.createdAt then some j else best)
        acc = some b →
      b ∈ l ∨ acc = some b := by
    intro l
    induction l with
    | nil =>
      intro acc b hb
      exact Or.inr hb
    | cons a rest ih =>
      intro acc b hb
      rw [List.foldl_cons] at hb
      rcases ih _ _ hb with hm | hacc
      · exact Or.inl (List.mem_cons_of_mem _ hm)
      · match acc with
        | none =>
          cases hacc
          exact Or.inl (List.mem_cons_self a rest)
        | some c =>
          dsimp only at hacc
          by_cases hlt : a.createdAt < c.createdAt
          · rw [if_pos hlt] at hacc
            cases hacc
            exact Or.inl (List.mem_cons_self a rest)
          · rw [if_neg hlt] at hacc
            exact Or.inr hacc
  unfold claimSelect at h
  rcases aux _ _ _ h with hm | hnone
  · rw [List.mem_filter] at hm
    exact ⟨hm.1, by simpa using hm.2⟩
  · cases hnone

/-- The worker-side decode succeeds on every parameter object written by the
enqueue path, returning the stored shortfall. -/
theorem extractCount_enqueueParams (g : String) (c : Int) :
    extractCount (enqueueParams g c) = some c := rfl

/-- The worker-side decode succeeds on every parameter object written by the
enqueue path, returning the stored granularity. -/
theorem extractGranularity_enqueueParams (g : String) (c : Int) :
    extractGranularity (enqueueParams g c) = some g := rfl

/-! ## Read path theorems (C1, C2, C3) -/

/-- C1: for every stored cache state and every request with a valid
category, granularity and positive period `N` such that at least `N`
forecast points exist for that (category, granularity), `getForecastHandler`
responds 200 with exactly `N` points sorted ascending by forecast date, and
the state — in particular the job ledger — is unchanged (no job row is
created). -/
theorem readPath_fullHit (s : SysState) (cat gran periodStr newJobId : String)
    (now : Nat) (N : Nat)
    (hp : atoi periodStr = some (N : Int)) (hN : 0 < N)
    (hgran : gran = "daily" ∨ gran = "monthly" ∨ gran = "yearly")
    (hstored : N ≤ (s.cache.filter
      (fun r => r.categoryId == cat && r.granularity == gran)).length) :
    ∃ pts,
      getForecastHandler s cat gran periodStr newJobId now =
        (ForecastResult.ok cat pts, s) ∧
      pts.length = N ∧
      List.Pairwise (fun a b => a.date ≤ b.date) pts := by
  have hb : (gran != "daily" && gran != "monthly" && gran != "yearly") = false := by
    rcases hgran with rfl | rfl | rfl <;> rfl
  have htn : ((N : Int)).toNat = N := Int.toNat_natCast N
  have hlen : ((queryForecasts s.cache cat gran N).map ForecastRow.toPoint).length = N := by
    simp only [List.length_map, queryForecasts, List.length_take,
      List.length_insertionSort]
    omega
  refine ⟨(queryForecasts s.cache cat gran N).map ForecastRow.toPoint, ?_, hlen, ?_⟩
  · simp only [getForecastHandler, hp]
    rw [if_neg (show ¬((N : Int) ≤ 0) by omega), hb]
    simp only [Bool.false_eq_true, if_false, htn]
    rw [if_pos (by rw [hlen])]
  · refine List.Pairwise.map ForecastRow.toPoint (fun a b hab => hab) ?_
    exact List.Pairwise.sublist (List.take_sublist _ _)
      (List.sorted_insertionSort dateLe _)

/-- C2: for every request with a valid category, granularity and positive
period `N` such that exactly `K < N` forecast points are stored for that
(category, granularity), `getForecastHandler` appends exactly one new job
row — status `PENDING`, `request.count = N - K`, `request.granularity` the
requested granularity — and responds 202 carrying the new job identifier
(the cache itself is untouched). -/
theorem readPath_shortfall (s : SysState) (cat gran periodStr newJobId : String)
    (now : Nat) (N K : Nat)
    (hp : atoi periodStr = some (N : Int)) (hN : 0 < N)
    (hgran : gran = "daily" ∨ gran = "monthly" ∨ gran = "yearly")
    (hstored : (s.cache.filter
      (fun r => r.categoryId == cat && r.granularity == gran)).length = K)
    (hK : K < N) :
    ∃ job,
      getForecastHandler s cat gran periodStr newJobId now =
        (ForecastResult.accepted
          "Forecast not available in cache. An asynchronous job has been created."
          newJobId,
         { s with jobs := s.jobs ++ [job] }) ∧
      job.jobId = newJobId ∧
      job.status = JobStatus.PENDING ∧
      extractCount job.requestParams = some ((N : Int) - (K : Int)) ∧
      extractGranularity job.requestParams = some gran := by
  have hb : (gran != "daily" && gran != "monthly" && gran != "yearly") = false := by
    rcases hgran with rfl | rfl | rfl <;> rfl
  have htn : ((N : Int)).toNat = N := Int.toNat_natCast N
  have hlen : ((queryForecasts s.cache cat gran N).map ForecastRow.toPoint).length = K := by
    simp only [List.length_map, queryForecasts, List.length_take,
      List.length_insertionSort, hstored]
    omega
  refine ⟨{ jobId := newJobId, categoryId := cat,
            requestParams := enqueueParams gran ((N : Int) - (K : Int)),
            status := JobStatus.PENDING, errorMessage := none,
            createdAt := now, updatedAt := now }, ?_,
          rfl, rfl, extractCount_enqueueParams _ _, extractGranularity_enqueueParams _ _⟩
  simp only [getForecastHandler, hp]
  rw [if_neg (show ¬((N : Int) ≤ 0) by omega), hb]
  simp only [Bool.false_eq_true, if_false, htn]
  rw [if_neg (by rw [hlen]; omega), hlen]

/-- C3: every request whose `period` parameter is not a positive integer or
whose granularity is not one of daily/monthly/yearly is answered 400 by
`getForecastHandler` with the state returned untouched: no cache row is
read into the response and no job row is ever created for such a request. -/
theorem readPath_validation (s : SysState) (cat gran periodStr newJobId : String)
    (now : Nat)
    (h : (∀ n : Int, atoi periodStr = some n → n ≤ 0) ∨
         (gran ≠ "daily" ∧ gran ≠ "monthly" ∧ gran ≠ "yearly")) :
    ∃ msg, getForecastHandler s cat gran periodStr newJobId now =
      (ForecastResult.badRequest msg, s) := by
  match hatoi : atoi periodStr with
  | none =>
    exact ⟨"Invalid period parameter.", by simp only [getForecastHandler, hatoi]⟩
  | some n =>
    by_cases hn0 : n ≤ 0
    · refine ⟨"Invalid period parameter.", ?_⟩
      simp only [getForecastHandler, hatoi]
      rw [if_pos hn0]
    · rcases h with hper | ⟨h1, h2, h3⟩
      · exact absurd (hper n hatoi) hn0
      · refine ⟨"Invalid forecast horizon.", ?_⟩
        have hb : (gran != "daily" && gran != "monthly" && gran != "yearly") = true := by
          simp only [Bool.and_eq_true, bne_iff_ne, ne_eq]
          exact ⟨⟨h1, h2⟩, h3⟩
        simp only [getForecastHandler, hatoi]
        rw [if_neg hn0, hb, if_pos rfl]

theorem readPath_fullHit_witness :
    atoi "2" = some ((2 : Nat) : Int) ∧ 0 < 2 ∧
    2 ≤ (sampleState.cache.filter
      (fun r => r.categoryId == "CAT_01" && r.granularity == "daily")).length ∧
    ∃ pts,
      getForecastHandler sampleState "CAT_01" "daily" "2" "u1" 7 =
        (ForecastResult.ok "CAT_01" pts, sampleState) ∧
      pts.length = 2 ∧
      List.Pairwise (fun a b => a.date ≤ b.date) pts :=
  ⟨by decide, by decide, by decide,
    readPath_fullHit sampleState "CAT_01" "daily" "2" "u1" 7 2
      (by decide) (by decide) (Or.inl rfl) (by decide)⟩

theorem readPath_shortfall_witness :
    atoi "5" = some ((5 : Nat) : Int) ∧
    (sampleState.cache.filter
      (fun r => r.categoryId == "CAT_01" && r.granularity == "daily")).length = 3 ∧
    ∃ job,
      getForecastHandler sampleState "CAT_01" "daily" "5" "u1" 7 =
        (ForecastResult.accepted
          "Forecast not available in cache. An asynchronous job has been created."
          "u1",
         { sampleState with jobs := sampleState.jobs ++ [job] }) ∧
      job.jobId = "u1" ∧
      job.status = JobStatus.PENDING ∧
      extractCount job.requestParams = some (((5 : Nat) : Int) - ((3 : Nat) : Int)) ∧
      extractGranularity job.requestParams = some "daily" :=
  ⟨by decide, by decide,
    readPath_shortfall sampleState "CAT_01" "daily" "5" "u1" 7 5 3
      (by decide) (by decide) (Or.inl rfl) (by decide) (by decide)⟩

theorem readPath_validation_witness :
    (∃ msg, getForecastHandler sampleState "CAT_01" "daily" "0" "u2" 7 =
      (ForecastResult.badRequest msg, sampleState)) ∧
    (∃ msg, getForecastHandler sampleState "CAT_01" "weekly" "3" "u2" 7 =
      (ForecastResult.badRequest msg, sampleState)) :=
  ⟨readPath_validation sampleState "CAT_01" "daily" "0" "u2" 7
      (Or.inl (fun n hn => by
        have h0 : atoi "0" = some 0 := by decide
        rw [h0] at hn
        cases hn
        decide)),
    readPath_validation sampleState "CAT_01" "weekly" "3" "u2" 7
      (Or.inr ⟨by decide, by decide, by decide⟩)⟩

/-! ## Cancellation handler lemmas -/

/-- Effect of the cancel handler when the addressed job is observed
`PENDING`: the conditional update matches at least one row, success is
reported, and every (`jobID`, `PENDING`) row becomes `CANCELLED`. -/
theorem cancelJobHandler_pending_eq (s : SysState) (jobID : String) (now : Nat)
    (hpend : statusOf s jobID = some JobStatus.PENDING) :
    cancelJobHandler s jobID now =
      (CancelResult.ok,
        { s with jobs := s.jobs.map (fun job =>
            if job.jobId == jobID && job.status == JobStatus.PENDING then
              { job with status := JobStatus.CANCELLED, updatedAt := now }
            else job) }) := by
  unfold statusOf at hpend
  match hfind : s.jobs.find? (idIs jobID) with
  | none => rw [hfind] at hpend; cases hpend
  | some job =>
    rw [hfind] at hpend
    have hst : job.status = JobStatus.PENDING := Option.some.inj hpend
    have hid : (job.jobId == jobID) = true := by
      have h := List.find?_some hfind
      simpa [idIs] using h
    have hmem : job ∈ s.jobs := List.mem_of_find?_eq_some hfind
    have hfmem : job ∈ s.jobs.filter
        (fun j => j.jobId == jobID && j.status == JobStatus.PENDING) := by
      rw [List.mem_filter]
      exact ⟨hmem, by rw [hst]; simp [hid]⟩
    have hne : ((s.jobs.filter
        (fun j => j.jobId == jobID && j.status == JobStatus.PENDING)).length == 0)
        = false := by
      have hpos : 0 < (s.jobs.filter
          (fun j => j.jobId == jobID && j.status == JobStatus.PENDING)).length :=
        List.length_pos.mpr (List.ne_nil_of_mem hfmem)
      simp only [beq_eq_false_iff_ne, ne_eq]
      omega
    simp only [cancelJobHandler]
    rw [hne]
    rfl

/-- In the state left by a successful cancel, the cancelled job reads
`CANCELLED`. -/
theorem statusOf_cancel_map (s : SysState) (jobID : String) (now : Nat)
    (hpend : statusOf s jobID = some JobStatus.PENDING) :
    statusOf { s with jobs := s.jobs.map (fun job =>
        if job.jobId == jobID && job.status == JobStatus.PENDING then
          { job with status := JobStatus.CANCELLED, updatedAt := now }
        else job) } jobID = some JobStatus.CANCELLED := by
  unfold statusOf at hpend ⊢
  match hfind : s.jobs.find? (idIs jobID) with
  | none => rw [hfind] at hpend; cases hpend
  | some job =>
    rw [hfind] at hpend
    have hst : job.status = JobStatus.PENDING := Option.some.inj hpend
    have hid : (job.jobId == jobID) = true := by
      have h := List.find?_some hfind
      simpa [idIs] using h
    rw [find?_map_of_id_preserved _ _ _
      (fun j => by by_cases hc : j.jobId == jobID && j.status == JobStatus.PENDING <;>
        simp [hc])]
    rw [hfind]
    simp only [Option.map_some']
    have hcond : (job.jobId == jobID && job.status == JobStatus.PENDING) = true := by
      rw [hst]; simp [hid]
    rw [hcond]
    rfl

/-- Effect of the cancel handler when the addressed job exists but is not
`PENDING` (requires the UUID uniqueness of job ids): the conditional update
matches zero rows and the handler reports a conflict carrying the current
status, leaving the state untouched. -/
theorem cancelJobHandler_nonpending (s : SysState) (jobID : String) (now : Nat)
    (st : JobStatus) (hnodup : (s.jobs.map Job.jobId).Nodup)
    (hst : statusOf s jobID = some st) (hne : st ≠ JobStatus.PENDING) :
    cancelJobHandler s jobID now = (CancelResult.conflict st, s) := by
  unfold statusOf at hst
  match hfind : s.jobs.find? (idIs jobID) with
  | none => rw [hfind] at hst; cases hst
  | some job =>
    rw [hfind] at hst
    have hjst : job.status = st := Option.some.inj hst
    have hmem : job ∈ s.jobs := List.mem_of_find?_eq_some hfind
    have hid : job.jobId = jobID := by
      have := List.find?_some hfind
      simpa [idIs] using this
    have hz : (s.jobs.filter
        (fun j => j.jobId == jobID && j.status == JobStatus.PENDING)).length = 0 := by
      rw [List.length_eq_zero, List.filter_eq_nil_iff]
      intro j hj hcond
      simp only [Bool.and_eq_true, beq_iff_eq] at hcond
      have : j = job :=
        List.inj_on_of_nodup_map hnodup hj hmem (by rw [hcond.1, hid])
      rw [this] at hcond
      exact hne (by rw [← hjst, hcond.2])
    subst hjst
    unfold cancelJobHandler
    rw [hz, hfind]
    rfl

/-! ## Cancellation handler theorem (C6) -/

/-- C6: for every cancel request, `cancelJobHandler` answers: success (200)
with the job transitioned to `CANCELLED` when the job exists in status
`PENDING`; not-found (404) with the state untouched when no such job
exists; conflict (409) reporting the job's current status, with the state
untouched, when the job exists in any other status. -/
theorem cancelHandler_spec (s : SysState) (jobID : String) (now : Nat)
    (hnodup : (s.jobs.map Job.jobId).Nodup) :
    (statusOf s jobID = some JobStatus.PENDING →
      (cancelJobHandler s jobID now).1 = CancelResult.ok ∧
      statusOf (cancelJobHandler s jobID now).2 jobID = some JobStatus.CANCELLED) ∧
    (statusOf s jobID = none →
      cancelJobHandler s jobID now = (CancelResult.notFound, s)) ∧
    (∀ st, statusOf s jobID = some st → st ≠ JobStatus.PENDING →
      cancelJobHandler s jobID now = (CancelResult.conflict st, s)) := by
  refine ⟨?_, ?_, fun st hst hne => cancelJobHandler_nonpending s jobID now st hnodup hst hne⟩
  · intro hpend
    rw [cancelJobHandler_pending_eq s jobID now hpend]
    exact ⟨rfl, statusOf_cancel_map s jobID now hpend⟩
  · intro hnone
    unfold statusOf at hnone
    match hfind : s.jobs.find? (idIs jobID) with
    | some job => rw [hfind] at hnone; cases hnone
    | none =>
      have hz : (s.jobs.filter
          (fun j => j.jobId == jobID && j.status == JobStatus.PENDING)).length = 0 := by
        rw [List.length_eq_zero, List.filter_eq_nil_iff]
        intro j hj
        have := List.find?_eq_none.mp hfind j hj
        simp only [idIs] at this
        simp [this]
      unfold cancelJobHandler
      rw [hz, hfind]
      rfl

theorem cancelHandler_spec_witness :
    ((samplePending.jobs.map Job.jobId).Nodup ∧
      statusOf samplePending "j1" = some JobStatus.PENDING) ∧
    ((cancelJobHandler samplePending "j1" 5).1 = CancelResult.ok ∧
      statusOf (cancelJobHandler samplePending "j1" 5).2 "j1" =
        some JobStatus.CANCELLED) ∧
    cancelJobHandler samplePending "zz" 5 = (CancelResult.notFound, samplePending) ∧
    cancelJobHandler (jobRunnerTick samplePending 1).2 "j1" 5 =
      (CancelResult.conflict JobStatus.RUNNING, (jobRunnerTick samplePending 1).2) :=
  ⟨⟨by decide, by decide⟩,
    (cancelHandler_spec samplePending "j1" 5 (by decide)).1 (by decide),
    (cancelHandler_spec samplePending "zz" 5 (by decide)).2.1 (by decide),
    (cancelHandler_spec (jobRunnerTick samplePending 1).2 "j1" 5 (by decide)).2.2
      JobStatus.RUNNING (by decide) (by decide)⟩

/-! ## Claim-versus-cancel race (C5) -/

/-- C5: for a `PENDING` job over which a worker claim and a cancel request
race, whichever conditional update commits first wins.  Claim first: the
job becomes `RUNNING`, and the subsequent cancel matches zero rows, leaving
the state untouched and reporting a conflict consistent with the final
state.  Cancel first: the job becomes `CANCELLED` with success reported,
and a subsequent claim can never select that job. -/
theorem claim_cancel_race (s : SysState) (j : String) (job0 : Job)
    (now1 now2 : Nat)
    (hnodup : (s.jobs.map Job.jobId).Nodup)
    (hsel : claimSelect s.jobs = some job0) (hid0 : job0.jobId = j)
    (hpend : statusOf s j = some JobStatus.PENDING) :
    ((jobRunnerTick s now1).1 = some job0 ∧
     statusOf (jobRunnerTick s now1).2 j = some JobStatus.RUNNING ∧
     cancelJobHandler (jobRunnerTick s now1).2 j now2 =
       (CancelResult.conflict JobStatus.RUNNING, (jobRunnerTick s now1).2)) ∧
    ((cancelJobHandler s j now2).1 = CancelResult.ok ∧
     statusOf (cancelJobHandler s j now2).2 j = some JobStatus.CANCELLED ∧
     ∀ job, claimSelect ((cancelJobHandler s j now2).2).jobs = some job →
       job.jobId ≠ j) := by
  have htick : jobRunnerTick s now1 =
      (some job0,
        { s with
            jobs := s.jobs.map (fun jb =>
              if jb.jobId == job0.jobId then
                { jb with status := JobStatus.RUNNING, updatedAt := now1 }
              else jb)
            inFlight := s.inFlight ++ [job0.jobId] }) := by
    unfold jobRunnerTick
    rw [hsel]
  have hrun : statusOf (jobRunnerTick s now1).2 j = some JobStatus.RUNNING := by
    rw [htick]
    unfold statusOf at hpend ⊢
    match hfind : s.jobs.find? (idIs j) with
    | none => rw [hfind] at hpend; cases hpend
    | some job1 =>
      rw [hfind] at hpend
      have hid1 : (job1.jobId == job0.jobId) = true := by
        have h := List.find?_some hfind
        simp only [idIs, beq_iff_eq] at h ⊢
        rw [h, hid0]
      rw [find?_map_of_id_preserved _ _ _
        (fun jb => by by_cases hc : jb.jobId == job0.jobId <;> simp [hc])]
      rw [hfind]
      simp only [Option.map_some']
      rw [hid1]
      rfl
  refine ⟨⟨by rw [htick], hrun, ?_⟩, ?_⟩
  · have hnodup1 : (((jobRunnerTick s now1).2).jobs.map Job.jobId).Nodup := by
      rw [htick]
      rw [map_jobId_map_of_id_preserved _ _
        (fun jb => by by_cases hc : (jb.jobId == job0.jobId) = true <;> simp [hc])]
      exact hnodup
    exact cancelJobHandler_nonpending _ j now2 JobStatus.RUNNING hnodup1 hrun
      (by intro h; cases h)
  · rw [cancelJobHandler_pending_eq s j now2 hpend]
    refine ⟨rfl, statusOf_cancel_map s j now2 hpend, ?_⟩
    intro job hjob
    obtain ⟨hm, hpend'⟩ := claimSelect_mem _ _ hjob
    obtain ⟨row, hrow, rfl⟩ := List.mem_map.mp hm
    by_cases hc : (row.jobId == j && row.status == JobStatus.PENDING) = true
    · rw [if_pos hc] at hpend'
      cases hpend'
    · rw [if_neg hc] at hpend' ⊢
      intro hjid
      apply hc
      simp only [Bool.and_eq_true, beq_iff_eq]
      exact ⟨hjid, hpend'⟩

theorem claim_cancel_race_witness :
    ((samplePending.jobs.map Job.jobId).Nodup ∧
      claimSelect samplePending.jobs = some (sampleJob "j1" JobStatus.PENDING 0) ∧
      statusOf samplePending "j1" = some JobStatus.PENDING) ∧
    (((jobRunnerTick samplePending 1).1 = some (sampleJob "j1" JobStatus.PENDING 0) ∧
      statusOf (jobRunnerTick samplePending 1).2 "j1" = some JobStatus.RUNNING ∧
      cancelJobHandler (jobRunnerTick samplePending 1).2 "j1" 2 =
        (CancelResult.conflict JobStatus.RUNNING, (jobRunnerTick samplePending 1).2)) ∧
     ((cancelJobHandler samplePending "j1" 2).1 = CancelResult.ok ∧
      statusOf (cancelJobHandler samplePending "j1" 2).2 "j1" =
        some JobStatus.CANCELLED ∧
      ∀ job, claimSelect ((cancelJobHandler samplePending "j1" 2).2).jobs = some job →
        job.jobId ≠ "j1")) :=
  ⟨⟨by decide, by decide, by decide⟩,
    claim_cancel_race samplePending "j1" (sampleJob "j1" JobStatus.PENDING 0) 1 2
      (by decide) (by decide) (by decide) (by decide)⟩

/-! ## Worker processing lemmas -/

theorem find?_failJob_eq (jobs : List Job) (jobID msg : String) (now : Nat)
    (job : Job) (hfind : jobs.find? (idIs jobID) = some job) :
    (failJob jobs jobID msg now).find? (idIs jobID) =
      some { job with status := JobStatus.FAILED, errorMessage := some msg,
                      updatedAt := now } := by
  unfold failJob
  rw [find?_map_of_id_preserved _ _ _
    (fun jb => by by_cases hc : (jb.jobId == jobID) = true <;> simp [hc])]
  rw [hfind]
  have hid : (job.jobId == jobID) = true := by
    have h := List.find?_some hfind
    simpa [idIs] using h
  simp only [Option.map_some']
  rw [hid]
  rfl

theorem find?_completeJob_eq (jobs : List Job) (jobID : String) (now : Nat)
    (job : Job) (hfind : jobs.find? (idIs jobID) = some job) :
    (completeJob jobs jobID now).find? (idIs jobID) =
      some { job with status := JobStatus.COMPLETED, updatedAt := now } := by
  unfold completeJob
  rw [find?_map_of_id_preserved _ _ _
    (fun jb => by by_cases hc : (jb.jobId == jobID) = true <;> simp [hc])]
  rw [hfind]
  have hid : (job.jobId == jobID) = true := by
    have h := List.find?_some hfind
    simpa [idIs] using h
  simp only [Option.map_some']
  rw [hid]
  rfl

/-- No `PENDING` row bears the finalized job's id in a `failJob` state, so
the claim subquery can never select it again: there is no automatic retry. -/
theorem claimSelect_failJob_ne (jobs : List Job) (jobID msg : String) (now : Nat) :
    ∀ job, claimSelect (failJob jobs jobID msg now) = some job →
      job.jobId ≠ jobID := by
  intro job hjob
  obtain ⟨hm, hpend⟩ := claimSelect_mem _ _ hjob
  unfold failJob at hm
  obtain ⟨row, hrow, rfl⟩ := List.mem_map.mp hm
  by_cases hc : (row.jobId == jobID) = true
  · rw [if_pos hc] at hpend
    cases hpend
  · rw [if_neg hc]
    simpa using hc

theorem processJob_transportError (s : SysState) (jobID : String)
    (params : Params) (msg : String) (now : Nat) (c : Int) (g : String)
    (hc : extractCount params = some c) (hg : extractGranularity params = some g) :
    processJob s jobID params (HttpResult.transportError msg) now =
      { s with jobs := failJob s.jobs jobID msg now } := by
  unfold processJob
  rw [hc, hg]

theorem processJob_httpError (s : SysState) (jobID : String) (params : Params)
    (code : Nat) (body : Option (List ForecastRow)) (now : Nat) (c : Int) (g : String)
    (hc : extractCount params = some c) (hg : extractGranularity params = some g)
    (hcode : code ≠ 200) :
    processJob s jobID params (HttpResult.resp code body) now =
      { s with jobs := failJob s.jobs jobID pythonServiceErrMsg now } := by
  unfold processJob
  rw [hc, hg]
  dsimp only
  rw [if_pos (by simpa [bne_iff_ne] using hcode)]

theorem processJob_badBody (s : SysState) (jobID : String) (params : Params)
    (now : Nat) (c : Int) (g : String)
    (hc : extractCount params = some c) (hg : extractGranularity params = some g) :
    processJob s jobID params (HttpResult.resp 200 none) now =
      { s with jobs := failJob s.jobs jobID decodeErrMsg now } := by
  unfold processJob
  rw [hc, hg]
  dsimp only
  rw [if_neg (by decide)]

theorem processJob_mergeFailed (s : SysState) (jobID : String) (params : Params)
    (pts : List ForecastRow) (now : Nat) (c : Int) (g : String)
    (hc : extractCount params = some c) (hg : extractGranularity params = some g)
    (hmb : mergeBatch s.cache pts = none) :
    processJob s jobID params (HttpResult.resp 200 (some pts)) now =
      { s with jobs := failJob s.jobs jobID bulkInsertErrMsg now } := by
  unfold processJob
  rw [hc, hg]
  dsimp only
  rw [if_neg (by decide), hmb]

theorem processJob_mergeOk (s : SysState) (jobID : String) (params : Params)
    (pts : List ForecastRow) (cache2 : List ForecastRow) (now : Nat) (c : Int) (g : String)
    (hc : extractCount params = some c) (hg : extractGranularity params = some g)
    (hmb : mergeBatch s.cache pts = some cache2) :
    processJob s jobID params (HttpResult.resp 200 (some pts)) now =
      { s with cache := cache2, jobs := completeJob s.jobs jobID now } := by
  unfold processJob
  rw [hc, hg]
  dsimp only
  rw [if_neg (by decide), hmb]

/-! ## Generator failure theorem (C7) -/

/-- C7: for a claimed (`RUNNING`) job whose generator invocation fails —
transport error or any non-success HTTP response — the worker finalizes the
job directly to `FAILED` with the captured error message, writes nothing to
the cache, and the claim subquery never selects the job again (no automatic
retry); the failure is observable afterwards through the job-status query,
which returns `FAILED` with the captured message. -/
theorem generator_failure_fails_job (s : SysState) (jobID : String)
    (params : Params) (gen : HttpResult) (now : Nat) (c : Int) (g : String)
    (hc : extractCount params = some c) (hg : extractGranularity params = some g)
    (hrun : statusOf s jobID = some JobStatus.RUNNING)
    (hfail : (∃ msg, gen = HttpResult.transportError msg) ∨
             (∃ code body, gen = HttpResult.resp code body ∧ code ≠ 200)) :
    (processJob s jobID params gen now).cache = s.cache ∧
    statusOf (processJob s jobID params gen now) jobID = some JobStatus.FAILED ∧
    (∃ job, s.jobs.find? (idIs jobID) = some job ∧
      getJobStatusHandler (processJob s jobID params gen now) jobID =
        JobQueryResult.ok job.jobId job.categoryId JobStatus.FAILED
          (capturedErrMsg gen) job.createdAt now) ∧
    (∀ job, claimSelect ((processJob s jobID params gen now).jobs) = some job →
      job.jobId ≠ jobID) := by
  have hstate : processJob s jobID params gen now =
      { s with jobs := failJob s.jobs jobID (capturedErrMsg gen) now } := by
    rcases hfail with ⟨msg, rfl⟩ | ⟨code, body, rfl, hcode⟩
    · exact processJob_transportError s jobID params msg now c g hc hg
    · exact processJob_httpError s jobID params code body now c g hc hg hcode
  rw [hstate]
  unfold statusOf at hrun
  match hfind : s.jobs.find? (idIs jobID) with
  | none => rw [hfind] at hrun; cases hrun
  | some job =>
    refine ⟨rfl, ?_, ⟨job, rfl, ?_⟩,
      claimSelect_failJob_ne s.jobs jobID (capturedErrMsg gen) now⟩
    · unfold statusOf
      dsimp only
      rw [find?_failJob_eq s.jobs jobID (capturedErrMsg gen) now job hfind]
      rfl
    · unfold getJobStatusHandler
      dsimp only
      rw [find?_failJob_eq s.jobs jobID (capturedErrMsg gen) now job hfind]
      rfl

theorem generator_failure_fails_job_witness :
    statusOf sampleRunning "j1" = some JobStatus.RUNNING ∧
    ((processJob sampleRunning "j1" (enqueueParams "daily" 2)
        (HttpResult.transportError "dial tcp refused") 9).cache =
      sampleRunning.cache ∧
     statusOf (processJob sampleRunning "j1" (enqueueParams "daily" 2)
        (HttpResult.transportError "dial tcp refused") 9) "j1" =
       some JobStatus.FAILED ∧
     (∃ job, sampleRunning.jobs.find? (idIs "j1") = some job ∧
       getJobStatusHandler (processJob sampleRunning "j1" (enqueueParams "daily" 2)
          (HttpResult.transportError "dial tcp refused") 9) "j1" =
         JobQueryResult.ok job.jobId job.categoryId JobStatus.FAILED
           (capturedErrMsg (HttpResult.transportError "dial tcp refused"))
           job.createdAt 9) ∧
     (∀ job, claimSelect ((processJob sampleRunning "j1" (enqueueParams "daily" 2)
          (HttpResult.transportError "dial tcp refused") 9).jobs) = some job →
       job.jobId ≠ "j1")) :=
  ⟨by decide,
    generator_failure_fails_job sampleRunning "j1" (enqueueParams "daily" 2)
      (HttpResult.transportError "dial tcp refused") 9 2 "daily"
      (by decide) (by decide) (by decide)
      (Or.inl ⟨"dial tcp refused", rfl⟩)⟩

/-! ## Merge atomicity theorem (C9) -/

/-- C9: for a claimed job with a successful generator response, the batch
write into the cache is all-or-nothing: if the transactional write fails,
the cache is left exactly as it was (rollback, no partial mutation) and the
job is finalized `FAILED`, never `COMPLETED`; only when the whole batch
commits is the job finalized `COMPLETED`, the cache then being the
committed one. -/
theorem merge_atomic_finalize (s : SysState) (jobID : String) (params : Params)
    (pts : List ForecastRow) (now : Nat) (c : Int) (g : String)
    (hc : extractCount params = some c) (hg : extractGranularity params = some g)
    (hrun : statusOf s jobID = some JobStatus.RUNNING) :
    (mergeBatch s.cache pts = none →
      (processJob s jobID params (HttpResult.resp 200 (some pts)) now).cache =
        s.cache ∧
      statusOf (processJob s jobID params (HttpResult.resp 200 (some pts)) now)
        jobID = some JobStatus.FAILED) ∧
    (∀ cache2, mergeBatch s.cache pts = some cache2 →
      (processJob s jobID params (HttpResult.resp 200 (some pts)) now).cache =
        cache2 ∧
      statusOf (processJob s jobID params (HttpResult.resp 200 (some pts)) now)
        jobID = some JobStatus.COMPLETED) := by
  unfold statusOf at hrun
  match hfind : s.jobs.find? (idIs jobID) with
  | none => rw [hfind] at hrun; cases hrun
  | some job =>
    constructor
    · intro hmb
      rw [processJob_mergeFailed s jobID params pts now c g hc hg hmb]
      refine ⟨rfl, ?_⟩
      unfold statusOf
      dsimp only
      rw [find?_failJob_eq s.jobs jobID bulkInsertErrMsg now job hfind]
      rfl
    · intro cache2 hmb
      rw [processJob_mergeOk s jobID params pts cache2 now c g hc hg hmb]
      refine ⟨rfl, ?_⟩
      unfold statusOf
      dsimp only
      rw [find?_completeJob_eq s.jobs jobID now job hfind]
      rfl

theorem merge_atomic_finalize_witness :
    (statusOf sampleRunningCached "j1" = some JobStatus.RUNNING ∧
     mergeBatch sampleRunningCached.cache [clashPoint] = none ∧
     mergeBatch sampleRunning.cache [clashPoint] = some [clashPoint]) ∧
    ((processJob sampleRunningCached "j1" (enqueueParams "daily" 2)
        (HttpResult.resp 200 (some [clashPoint])) 9).cache =
      sampleRunningCached.cache ∧
     statusOf (processJob sampleRunningCached "j1" (enqueueParams "daily" 2)
        (HttpResult.resp 200 (some [clashPoint])) 9) "j1" =
       some JobStatus.FAILED) ∧
    ((processJob sampleRunning "j1" (enqueueParams "daily" 2)
        (HttpResult.resp 200 (some [clashPoint])) 9).cache = [clashPoint] ∧
     statusOf (processJob sampleRunning "j1" (enqueueParams "daily" 2)
        (HttpResult.resp 200 (some [clashPoint])) 9) "j1" =
       some JobStatus.COMPLETED) :=
  ⟨⟨by decide, by decide, by decide⟩,
    (merge_atomic_finalize sampleRunningCached "j1" (enqueueParams "daily" 2)
      [clashPoint] 9 2 "daily" (by decide) (by decide) (by decide)).1 (by decide),
    (merge_atomic_finalize sampleRunning "j1" (enqueueParams "daily" 2)
      [clashPoint] 9 2 "daily" (by decide) (by decide) (by decide)).2
      [clashPoint] (by decide)⟩

/-! ## Merge (COPY) lemmas and the upsert question (C8) -/

theorem mergeBatch_mem_mono : ∀ (pts cache cache2 : List ForecastRow),
    mergeBatch cache pts = some cache2 → ∀ x ∈ cache, x ∈ cache2 := by
  intro pts
  induction pts with
  | nil =>
    intro cache cache2 h x hx
    cases h
    exact hx
  | cons p rest ih =>
    intro cache cache2 h x hx
    unfold mergeBatch at h
    by_cases hc : hasTriple cache (tripleKey p) = true
    · rw [if_pos hc] at h; cases h
    · rw [if_neg hc] at h
      exact ih _ _ h x (List.mem_append_left _ hx)

/-- Re-merging a nonempty batch that already committed aborts: its first
point's unique triple is already present, so the `COPY` raises a unique
violation and the transaction rolls back. -/
theorem mergeBatch_again_none (p : ForecastRow) (rest cache cache2 : List ForecastRow)
    (h : mergeBatch cache (p :: rest) = some cache2) :
    mergeBatch cache2 (p :: rest) = none := by
  have hp : p ∈ cache2 := by
    unfold mergeBatch at h
    by_cases hc : hasTriple cache (tripleKey p) = true
    · rw [if_pos hc] at h; cases h
    · rw [if_neg hc] at h
      exact mergeBatch_mem_mono rest _ _ h p
        (List.mem_append_right _ (List.mem_singleton.mpr rfl))
  have hh : hasTriple cache2 (tripleKey p) = true := by
    unfold hasTriple
    rw [List.any_eq_true]
    exact ⟨p, hp, by simp⟩
  unfold mergeBatch
  rw [if_pos hh]

/-- A committed batch write keeps the schema invariant that no two cache
rows share a (category, date, granularity) triple. -/
theorem mergeBatch_nodup_triples : ∀ (pts cache cache2 : List ForecastRow),
    mergeBatch cache pts = some cache2 →
    (cache.map tripleKey).Nodup → (cache2.map tripleKey).Nodup := by
  intro pts
  induction pts with
  | nil =>
    intro cache cache2 h hn
    cases h
    exact hn
  | cons p rest ih =>
    intro cache cache2 h hn
    unfold mergeBatch at h
    by_cases hc : hasTriple cache (tripleKey p) = true
    · rw [if_pos hc] at h; cases h
    · rw [if_neg hc] at h
      apply ih _ _ h
      rw [List.map_append, List.nodup_append]
      refine ⟨hn, by simp, ?_⟩
      intro a ha hb
      simp only [List.map_cons, List.map_nil, List.mem_singleton] at hb
      subst hb
      obtain ⟨r, hr, hra⟩ := List.mem_map.mp ha
      apply hc
      unfold hasTriple
      rw [List.any_eq_true]
      refine ⟨r, hr, ?_⟩
      rw [hra]
      exact beq_self_eq_true (tripleKey p)

/-- C8 counterexample: the batch write of this program is not an upsert.
The cache holds a row for a triple and the batch writes a point for the
same triple; instead of replacing the prior row (which the spec-worded
`upsertBatch` would do, keeping a single row with the new values), the
whole batch aborts on the unique constraint — `mergeBatch` returns `none`,
the rollback — so no row is ever replaced. -/
theorem merge_upsert_counterexample :
    tripleKey clashPoint = tripleKey clashRow ∧
    mergeBatch [clashRow] [clashPoint] = none ∧
    upsertBatch [clashRow] [clashPoint] = [clashPoint] := by decide

/-- C8 (amended): re-merging the same generated batch leaves the Cache
Store with no duplicate rows for any (category, date, granularity) triple
and in the same state as merging it once — but not through replace-on-
conflict upsert semantics: a nonempty batch whose triples already committed
aborts as a whole (unique violation and rollback, the job going to
`FAILED`) instead of replacing rows. -/
theorem remerge_idempotent_state (s : SysState) (jobID1 jobID2 : String)
    (params1 params2 : Params) (pts : List ForecastRow) (now1 now2 : Nat)
    (c1 c2 : Int) (g1 g2 : String)
    (hc1 : extractCount params1 = some c1)
    (hg1 : extractGranularity params1 = some g1)
    (hc2 : extractCount params2 = some c2)
    (hg2 : extractGranularity params2 = some g2) :
    ((processJob (processJob s jobID1 params1 (HttpResult.resp 200 (some pts)) now1)
        jobID2 params2 (HttpResult.resp 200 (some pts)) now2).cache =
      (processJob s jobID1 params1 (HttpResult.resp 200 (some pts)) now1).cache) ∧
    ((s.cache.map tripleKey).Nodup →
      (((processJob s jobID1 params1 (HttpResult.resp 200 (some pts)) now1).cache.map
          tripleKey).Nodup ∧
       ((processJob (processJob s jobID1 params1 (HttpResult.resp 200 (some pts)) now1)
          jobID2 params2 (HttpResult.resp 200 (some pts)) now2).cache.map
          tripleKey).Nodup)) ∧
    (∀ p rest cache2, pts = p :: rest → mergeBatch s.cache pts = some cache2 →
      mergeBatch cache2 pts = none) := by
  cases hm : mergeBatch s.cache pts with
  | none =>
    have h1 := processJob_mergeFailed s jobID1 params1 pts now1 c1 g1 hc1 hg1 hm
    have hcache1 : (processJob s jobID1 params1 (HttpResult.resp 200 (some pts)) now1).cache
        = s.cache := by rw [h1]
    have hm2 : mergeBatch (processJob s jobID1 params1
        (HttpResult.resp 200 (some pts)) now1).cache pts = none := by
      rw [hcache1]; exact hm
    have h2 := processJob_mergeFailed _ jobID2 params2 pts now2 c2 g2 hc2 hg2 hm2
    refine ⟨by rw [h2], fun hn => ?_, fun p rest cache2 hpts hsome => ?_⟩
    · rw [h2, hcache1]
      exact ⟨hn, hn⟩
    · cases hsome
  | some cache2 =>
    have h1 := processJob_mergeOk s jobID1 params1 pts cache2 now1 c1 g1 hc1 hg1 hm
    have hcache1 : (processJob s jobID1 params1 (HttpResult.resp 200 (some pts)) now1).cache
        = cache2 := by rw [h1]
    have hnodup2 : (s.cache.map tripleKey).Nodup → (cache2.map tripleKey).Nodup :=
      mergeBatch_nodup_triples pts s.cache cache2 hm
    cases pts with
    | nil =>
      have hm2 : mergeBatch (processJob s jobID1 params1
          (HttpResult.resp 200 (some [])) now1).cache [] = some cache2 := by
        rw [hcache1]; rfl
      have h2 := processJob_mergeOk _ jobID2 params2 [] cache2 now2 c2 g2 hc2 hg2 hm2
      refine ⟨by rw [h2, hcache1], fun hn => ?_, fun p rest cache3 hpts => by cases hpts⟩
      rw [h2, hcache1]
      exact ⟨hnodup2 hn, hnodup2 hn⟩
    | cons p rest =>
      have hagain : mergeBatch cache2 (p :: rest) = none :=
        mergeBatch_again_none p rest s.cache cache2 hm
      have hm2 : mergeBatch (processJob s jobID1 params1
          (HttpResult.resp 200 (some (p :: rest))) now1).cache (p :: rest) = none := by
        rw [hcache1]; exact hagain
      have h2 := processJob_mergeFailed _ jobID2 params2 (p :: rest) now2 c2 g2 hc2 hg2 hm2
      refine ⟨by rw [h2], fun hn => ?_, fun q qrest cache3 hpts hsome => ?_⟩
      · rw [h2, hcache1]
        exact ⟨hnodup2 hn, hnodup2 hn⟩
      · cases hsome
        exact hagain

theorem remerge_idempotent_state_witness :
    (extractCount (enqueueParams "daily" 2) = some 2 ∧
     (sampleRunning.cache.map tripleKey).Nodup) ∧
    ((processJob (processJob sampleRunning "j1" (enqueueParams "daily" 2)
        (HttpResult.resp 200 (some [clashPoint])) 8)
        "j1" (enqueueParams "daily" 2) (HttpResult.resp 200 (some [clashPoint])) 9).cache =
      (processJob sampleRunning "j1" (enqueueParams "daily" 2)
        (HttpResult.resp 200 (some [clashPoint])) 8).cache) ∧
    (((processJob sampleRunning "j1" (enqueueParams "daily" 2)
        (HttpResult.resp 200 (some [clashPoint])) 8).cache.map tripleKey).Nodup ∧
     ((processJob (processJob sampleRunning "j1" (enqueueParams "daily" 2)
        (HttpResult.resp 200 (some [clashPoint])) 8)
        "j1" (enqueueParams "daily" 2) (HttpResult.resp 200 (some [clashPoint])) 9).cache.map
        tripleKey).Nodup) :=
  ⟨⟨by decide, by decide⟩,
    (remerge_idempotent_state sampleRunning "j1" "j1" (enqueueParams "daily" 2)
      (enqueueParams "daily" 2) [clashPoint] 8 9 2 2 "daily" "daily"
      (by decide) (by decide) (by decide) (by decide)).1,
    (remerge_idempotent_state sampleRunning "j1" "j1" (enqueueParams "daily" 2)
      (enqueueParams "daily" 2) [clashPoint] 8 9 2 2 "daily" "daily"
      (by decide) (by decide) (by decide) (by decide)).2.1 (by decide)⟩

/-! ## Request-parameter decode (C10) -/

/-- Shape of the state left by `getForecastHandler`: either untouched, or
with exactly one appended `PENDING` job whose parameters were built by
`enqueueParams`. -/
theorem getForecastHandler_state (s : SysState) (cat hor per id : String)
    (now : Nat) :
    (getForecastHandler s cat hor per id now).2 = s ∨
    ∃ count, (getForecastHandler s cat hor per id now).2 =
      { s with jobs := s.jobs ++
        [{ jobId := id, categoryId := cat,
           requestParams := enqueueParams hor count,
           status := JobStatus.PENDING, errorMessage := none,
           createdAt := now, updatedAt := now }] } := by
  match hat : atoi per with
  | none =>
    left
    simp only [getForecastHandler, hat]
  | some period =>
    by_cases h0 : period ≤ 0
    · left
      simp only [getForecastHandler, hat]
      rw [if_pos h0]
    · by_cases hh : (hor != "daily" && hor != "monthly" && hor != "yearly") = true
      · left
        simp only [getForecastHandler, hat]
        rw [if_neg h0, if_pos hh]
      · by_cases hfull : period.toNat ≤
            ((queryForecasts s.cache cat hor period.toNat).map ForecastRow.toPoint).length
        · left
          simp only [getForecastHandler, hat]
          rw [if_neg h0, if_neg hh, if_pos hfull]
        · right
          refine ⟨period -
            ((queryForecasts s.cache cat hor period.toNat).map ForecastRow.toPoint).length, ?_⟩
          simp only [getForecastHandler, hat]
          rw [if_neg h0, if_neg hh, if_neg hfull]

/-- C10: the worker's decode assumption on stored request parameters holds
for every job the Cache Read Path enqueues — such a job always carries a
numeric `count` and a string `granularity` —, while for a job row lacking
either field or binding it to another type, the worker's extraction is a
failing type assertion: the goroutine panics, `processJob` changes nothing,
and a `RUNNING` job stays `RUNNING` with no `FAILED` finalize ever
written. -/
theorem requestParams_decode (s : SysState) (cat hor per newJobId : String)
    (now : Nat) (jobID : String) (params : Params) (gen : HttpResult)
    (now2 : Nat) :
    (∀ job ∈ ((getForecastHandler s cat hor per newJobId now).2).jobs,
      job ∈ s.jobs ∨
        ((∃ cnt, extractCount job.requestParams = some cnt) ∧
         (∃ grn, extractGranularity job.requestParams = some grn))) ∧
    (extractCount params = none ∨ extractGranularity params = none →
      processJob s jobID params gen now2 = s) := by
  constructor
  · intro job hjob
    rcases getForecastHandler_state s cat hor per newJobId now with heq | ⟨count, heq⟩
    · rw [heq] at hjob
      exact Or.inl hjob
    · rw [heq] at hjob
      dsimp only at hjob
      rcases List.mem_append.mp hjob with h | h
      · exact Or.inl h
      · right
        rcases List.mem_singleton.mp h with rfl
        exact ⟨⟨count, extractCount_enqueueParams hor count⟩,
               ⟨hor, extractGranularity_enqueueParams hor count⟩⟩
  · intro hbad
    unfold processJob
    rcases hbad with hb | hb
    · rw [hb]
    · match hce : extractCount params with
      | none => rfl
      | some cnt => rw [hb]

theorem requestParams_decode_witness :
    (extractCount [("count", JVal.str "two")] = none ∨
     extractGranularity [("count", JVal.str "two")] = none) ∧
    statusOf sampleRunning "j1" = some JobStatus.RUNNING ∧
    processJob sampleRunning "j1" [("count", JVal.str "two")]
      (HttpResult.resp 200 (some [])) 9 = sampleRunning ∧
    (∀ job ∈ ((getForecastHandler sampleState "CAT_01" "daily" "5" "u1" 7).2).jobs,
      job ∈ sampleState.jobs ∨
        ((∃ cnt, extractCount job.requestParams = some cnt) ∧
         (∃ grn, extractGranularity job.requestParams = some grn))) :=
  ⟨Or.inl (by decide), by decide,
    (requestParams_decode sampleRunning "CAT_01" "daily" "5" "u1" 7 "j1"
      [("count", JVal.str "two")] (HttpResult.resp 200 (some [])) 9).2
      (Or.inl (by decide)),
    (requestParams_decode sampleState "CAT_01" "daily" "5" "u1" 7 "j1"
      [("count", JVal.str "two")] (HttpResult.resp 200 (some [])) 9).1⟩

/-! ## Job state machine (C4) -/

theorem statusMove_refl (x : Option JobStatus) : statusMove x x := by
  cases x with
  | none => trivial
  | some a => exact Or.inl rfl

theorem statusMove_some (x : Option JobStatus) (st : JobStatus)
    (h : statusMove (some st) x) :
    ∃ st2, x = some st2 ∧ (st = st2 ∨ allowedEdge st st2 = true) := by
  cases x with
  | none => exact h.elim
  | some st2 => exact ⟨st2, rfl, h⟩

theorem reach_refl (a : JobStatus) : reach a a = true := by
  cases a <;> rfl

theorem reach_extend (a b c : JobStatus)
    (h1 : a = b ∨ allowedEdge a b = true) (h2 : reach b c = true) :
    reach a c = true := by
  revert h1 h2
  cases a <;> cases b <;> cases c <;> decide

/-- Shape of the state left by `cancelJobHandler`: either untouched or with
the conditional `CANCELLED` update applied. -/
theorem cancelJobHandler_state (s : SysState) (jobID : String) (now : Nat) :
    (cancelJobHandler s jobID now).2 = s ∨
    (cancelJobHandler s jobID now).2 =
      { s with jobs := s.jobs.map (fun job =>
          if job.jobId == jobID && job.status == JobStatus.PENDING then
            { job with status := JobStatus.CANCELLED, updatedAt := now }
          else job) } := by
  simp only [cancelJobHandler]
  by_cases hz : ((s.jobs.filter
      (fun j => j.jobId == jobID && j.status == JobStatus.PENDING)).length == 0) = true
  · rw [if_pos hz]
    cases hfind : s.jobs.find? (idIs jobID) with
    | none => left; rfl
    | some job => left; rfl
  · rw [if_neg hz]
    right
    rfl

/-- Shape of the state left by `processJob`: the in-flight set is untouched
and the ledger is either untouched (panic), a `failJob` finalize, or a
`completeJob` finalize. -/
theorem processJob_shape (s : SysState) (jobID : String) (params : Params)
    (gen : HttpResult) (now : Nat) :
    ((processJob s jobID params gen now).inFlight = s.inFlight) ∧
    ((processJob s jobID params gen now).jobs = s.jobs ∨
     (∃ msg, (processJob s jobID params gen now).jobs = failJob s.jobs jobID msg now) ∨
     (processJob s jobID params gen now).jobs = completeJob s.jobs jobID now) := by
  cases hce : extractCount params with
  | none =>
    have h : processJob s jobID params gen now = s := by
      unfold processJob
      rw [hce]
    rw [h]
    exact ⟨rfl, Or.inl rfl⟩
  | some c =>
    cases hge : extractGranularity params with
    | none =>
      have h : processJob s jobID params gen now = s := by
        unfold processJob
        rw [hce, hge]
      rw [h]
      exact ⟨rfl, Or.inl rfl⟩
    | some g =>
      cases gen with
      | transportError msg =>
        rw [processJob_transportError s jobID params msg now c g hce hge]
        exact ⟨rfl, Or.inr (Or.inl ⟨msg, rfl⟩)⟩
      | resp code body =>
        by_cases hcode : code = 200
        · subst hcode
          cases body with
          | none =>
            rw [processJob_badBody s jobID params now c g hce hge]
            exact ⟨rfl, Or.inr (Or.inl ⟨decodeErrMsg, rfl⟩)⟩
          | some pts =>
            cases hmb : mergeBatch s.cache pts with
            | none =>
              rw [processJob_mergeFailed s jobID params pts now c g hce hge hmb]
              exact ⟨rfl, Or.inr (Or.inl ⟨bulkInsertErrMsg, rfl⟩)⟩
            | some cache2 =>
              rw [processJob_mergeOk s jobID params pts cache2 now c g hce hge hmb]
              exact ⟨rfl, Or.inr (Or.inr rfl)⟩
        · rw [processJob_httpError s jobID params code body now c g hce hge hcode]
          exact ⟨rfl, Or.inr (Or.inl ⟨pythonServiceErrMsg, rfl⟩)⟩

theorem statusMove_enqueue (s : SysState) (cat hor per id : String) (now : Nat)
    (j : String) :
    statusMove (statusOf s j) (statusOf (step s (Op.enqueue cat hor per id now)) j) := by
  unfold step
  dsimp only
  by_cases hg : s.jobs.any (fun job => job.jobId == id) = true
  · rw [if_pos hg]
    exact statusMove_refl _
  · rw [if_neg hg]
    rcases getForecastHandler_state s cat hor per id now with heq | ⟨count, heq⟩
    · rw [heq]
      exact statusMove_refl _
    · rw [heq]
      unfold statusOf
      dsimp only
      rw [List.find?_append]
      cases hfind : s.jobs.find? (idIs j) with
      | some job =>
        rw [Option.or_some]
        exact Or.inl rfl
      | none =>
        rw [Option.none_or]
        by_cases hid : (id == j) = true
        · rw [List.find?_cons_of_pos _ (by simpa [idIs] using hid)]
          rfl
        · rw [List.find?_cons_of_neg _ (by simpa [idIs] using hid)]
          trivial

theorem inv_enqueue (s : SysState) (cat hor per id : String) (now : Nat)
    (hinv : Inv s) : Inv (step s (Op.enqueue cat hor per id now)) := by
  unfold step
  dsimp only
  by_cases hg : s.jobs.any (fun job => job.jobId == id) = true
  · rw [if_pos hg]
    exact hinv
  · rw [if_neg hg]
    rcases getForecastHandler_state s cat hor per id now with heq | ⟨count, heq⟩
    · rw [heq]
      exact hinv
    · rw [heq]
      obtain ⟨hn1, hn2, hn3⟩ := hinv
      refine ⟨hn1, ?_, ?_⟩
      · dsimp only
        rw [List.map_append, List.nodup_append]
        refine ⟨hn2, by simp, ?_⟩
        intro a ha hb
        simp only [List.map_cons, List.map_nil, List.mem_singleton] at hb
        subst hb
        apply hg
        rw [List.any_eq_true]
        obtain ⟨job, hmem, hjid⟩ := List.mem_map.mp ha
        refine ⟨job, hmem, ?_⟩
        rw [hjid]
        exact beq_self_eq_true _
      · intro fid hfid
        obtain ⟨job, hmem, hjid, hst⟩ := hn3 fid hfid
        exact ⟨job, List.mem_append_left _ hmem, hjid, hst⟩

theorem statusMove_claim (s : SysState) (now : Nat) (j : String) (hinv : Inv s) :
    statusMove (statusOf s j) (statusOf (step s (Op.claim now)) j) := by
  unfold step jobRunnerTick
  cases hsel : claimSelect s.jobs with
  | none => exact statusMove_refl _
  | some job0 =>
    unfold statusOf
    dsimp only
    rw [find?_map_of_id_preserved _ _ _
      (fun jb => by by_cases hc : (jb.jobId == job0.jobId) = true <;> simp [hc])]
    cases hfind : s.jobs.find? (idIs j) with
    | none => trivial
    | some job1 =>
      simp only [Option.map_some']
      by_cases hc : (job1.jobId == job0.jobId) = true
      · rw [if_pos hc]
        obtain ⟨hmem0, hpend0⟩ := claimSelect_mem s.jobs job0 hsel
        have hmem1 : job1 ∈ s.jobs := List.mem_of_find?_eq_some hfind
        have heq : job1 = job0 :=
          List.inj_on_of_nodup_map hinv.2.1 hmem1 hmem0 (by simpa using hc)
        right
        rw [heq, hpend0]
        rfl
      · rw [if_neg hc]
        exact Or.inl rfl

theorem inv_claim (s : SysState) (now : Nat) (hinv : Inv s) :
    Inv (step s (Op.claim now)) := by
  unfold step jobRunnerTick
  cases hsel : claimSelect s.jobs with
  | none => exact hinv
  | some job0 =>
    obtain ⟨hn1, hn2, hn3⟩ := hinv
    obtain ⟨hmem0, hpend0⟩ := claimSelect_mem s.jobs job0 hsel
    have hnotin : job0.jobId ∉ s.inFlight := by
      intro hin
      obtain ⟨jobr, hmemr, hjidr, hstr⟩ := hn3 job0.jobId hin
      have heq : jobr = job0 := List.inj_on_of_nodup_map hn2 hmemr hmem0 hjidr
      rw [heq, hpend0] at hstr
      cases hstr
    refine ⟨?_, ?_, ?_⟩
    · dsimp only
      rw [List.nodup_append]
      refine ⟨hn1, by simp, ?_⟩
      intro a ha hb
      simp only [List.mem_singleton] at hb
      subst hb
      exact hnotin ha
    · dsimp only
      rw [map_jobId_map_of_id_preserved _ _
        (fun jb => by by_cases hc : (jb.jobId == job0.jobId) = true <;> simp [hc])]
      exact hn2
    · intro fid hfid
      dsimp only at hfid ⊢
      rcases List.mem_append.mp hfid with hin | hnew
      · obtain ⟨jobr, hmemr, hjidr, hstr⟩ := hn3 fid hin
        refine ⟨_, List.mem_map_of_mem _ hmemr, ?_, ?_⟩
        · by_cases hc : (jobr.jobId == job0.jobId) = true
          · rw [if_pos hc]
            exact hjidr
          · rw [if_neg hc]
            exact hjidr
        · by_cases hc : (jobr.jobId == job0.jobId) = true
          · rw [if_pos hc]
          · rw [if_neg hc]
            exact hstr
      · simp only [List.mem_singleton] at hnew
        subst hnew
        refine ⟨_, List.mem_map_of_mem _ hmem0, ?_, ?_⟩
        · rw [if_pos (beq_self_eq_true job0.jobId)]
        · rw [if_pos (beq_self_eq_true job0.jobId)]

theorem statusMove_cancel (s : SysState) (jobID : String) (now : Nat) (j : String) :
    statusMove (statusOf s j) (statusOf (step s (Op.cancel jobID now)) j) := by
  unfold step
  dsimp only
  rcases cancelJobHandler_state s jobID now with heq | heq
  · rw [heq]
    exact statusMove_refl _
  · rw [heq]
    unfold statusOf
    dsimp only
    rw [find?_map_of_id_preserved _ _ _
      (fun jb => by
        by_cases hc : (jb.jobId == jobID && jb.status == JobStatus.PENDING) = true <;>
          simp [hc])]
    cases hfind : s.jobs.find? (idIs j) with
    | none => trivial
    | some job1 =>
      simp only [Option.map_some']
      by_cases hc : (job1.jobId == jobID && job1.status == JobStatus.PENDING) = true
      · rw [if_pos hc]
        right
        have hp : job1.status = JobStatus.PENDING := by
          simp only [Bool.and_eq_true, beq_iff_eq] at hc
          exact hc.2
        rw [hp]
        rfl
      · rw [if_neg hc]
        exact Or.inl rfl

theorem inv_cancel (s : SysState) (jobID : String) (now : Nat) (hinv : Inv s) :
    Inv (step s (Op.cancel jobID now)) := by
  unfold step
  dsimp only
  rcases cancelJobHandler_state s jobID now with heq | heq
  · rw [heq]
    exact hinv
  · rw [heq]
    obtain ⟨hn1, hn2, hn3⟩ := hinv
    refine ⟨hn1, ?_, ?_⟩
    · dsimp only
      rw [map_jobId_map_of_id_preserved _ _
        (fun jb => by
          by_cases hc : (jb.jobId == jobID && jb.status == JobStatus.PENDING) = true <;>
            simp [hc])]
      exact hn2
    · intro fid hfid
      obtain ⟨jobr, hmemr, hjidr, hstr⟩ := hn3 fid hfid
      have hc : (jobr.jobId == jobID && jobr.status == JobStatus.PENDING) = false := by
        rw [hstr]
        simp
      refine ⟨_, List.mem_map_of_mem _ hmemr, ?_, ?_⟩
      · rw [hc]
        simp only [Bool.false_eq_true, if_false]
        exact hjidr
      · rw [hc]
        simp only [Bool.false_eq_true, if_false]
        exact hstr

theorem statusMove_work (s : SysState) (jobID : String) (gen : HttpResult)
    (now : Nat) (j : String) (hinv : Inv s) :
    statusMove (statusOf s j) (statusOf (step s (Op.work jobID gen now)) j) := by
  unfold step
  dsimp only
  by_cases hin : s.inFlight.contains jobID = true
  · rw [if_pos hin]
    cases hfind0 : s.jobs.find? (idIs jobID) with
    | none => exact statusMove_refl _
    | some jobw =>
      obtain ⟨hifl, hshape⟩ := processJob_shape
        { s with inFlight := s.inFlight.erase jobID } jobID jobw.requestParams gen now
      have hmemw : jobID ∈ s.inFlight := by
        simpa [List.elem_iff] using hin
      obtain ⟨jobr, hmemr, hjidr, hstr⟩ := hinv.2.2 jobID hmemw
      rcases hshape with hj | ⟨msg, hj⟩ | hj
      · unfold statusOf
        rw [hj]
        exact statusMove_refl _
      · unfold statusOf
        rw [hj]
        unfold failJob
        dsimp only
        rw [find?_map_of_id_preserved _ _ _
          (fun jb => by by_cases hc : (jb.jobId == jobID) = true <;> simp [hc])]
        cases hfind : s.jobs.find? (idIs j) with
        | none => trivial
        | some job1 =>
          simp only [Option.map_some']
          by_cases hc : (job1.jobId == jobID) = true
          · rw [if_pos hc]
            have hmem1 : job1 ∈ s.jobs := List.mem_of_find?_eq_some hfind
            have heq : job1 = jobr :=
              List.inj_on_of_nodup_map hinv.2.1 hmem1 hmemr
                (by rw [hjidr]; simpa using hc)
            right
            rw [heq, hstr]
            rfl
          · rw [if_neg hc]
            exact Or.inl rfl
      · unfold statusOf
        rw [hj]
        unfold completeJob
        dsimp only
        rw [find?_map_of_id_preserved _ _ _
          (fun jb => by by_cases hc : (jb.jobId == jobID) = true <;> simp [hc])]
        cases hfind : s.jobs.find? (idIs j) with
        | none => trivial
        | some job1 =>
          simp only [Option.map_some']
          by_cases hc : (job1.jobId == jobID) = true
          · rw [if_pos hc]
            have hmem1 : job1 ∈ s.jobs := List.mem_of_find?_eq_some hfind
            have heq : job1 = jobr :=
              List.inj_on_of_nodup_map hinv.2.1 hmem1 hmemr
                (by rw [hjidr]; simpa using hc)
            right
            rw [heq, hstr]
            rfl
          · rw [if_neg hc]
            exact Or.inl rfl
  · rw [if_neg hin]
    exact statusMove_refl _

theorem inv_work (s : SysState) (jobID : String) (gen : HttpResult) (now : Nat)
    (hinv : Inv s) : Inv (step s (Op.work jobID gen now)) := by
  unfold step
  dsimp only
  by_cases hin : s.inFlight.contains jobID = true
  · rw [if_pos hin]
    cases hfind0 : s.jobs.find? (idIs jobID) with
    | none => exact hinv
    | some jobw =>
      obtain ⟨hn1, hn2, hn3⟩ := hinv
      obtain ⟨hifl, hshape⟩ := processJob_shape
        { s with inFlight := s.inFlight.erase jobID } jobID jobw.requestParams gen now
      refine ⟨?_, ?_, ?_⟩
      · rw [hifl]
        exact List.Nodup.erase jobID hn1
      · rcases hshape with hj | ⟨msg, hj⟩ | hj
        · rw [hj]
          exact hn2
        · rw [hj]
          unfold failJob
          dsimp only
          rw [map_jobId_map_of_id_preserved _ _
            (fun jb => by by_cases hc : (jb.jobId == jobID) = true <;> simp [hc])]
          exact hn2
        · rw [hj]
          unfold completeJob
          dsimp only
          rw [map_jobId_map_of_id_preserved _ _
            (fun jb => by by_cases hc : (jb.jobId == jobID) = true <;> simp [hc])]
          exact hn2
      · intro fid hfid
        rw [hifl] at hfid
        dsimp only at hfid
        have hfid2 : fid ∈ s.inFlight := List.mem_of_mem_erase hfid
        have hne : fid ≠ jobID := ((List.Nodup.mem_erase_iff hn1).mp hfid).1
        obtain ⟨jobr, hmemr, hjidr, hstr⟩ := hn3 fid hfid2
        have hc : (jobr.jobId == jobID) = false := by
          rw [hjidr]
          simpa using hne
        rcases hshape with hj | ⟨msg, hj⟩ | hj
        · rw [hj]
          exact ⟨jobr, hmemr, hjidr, hstr⟩
        · rw [hj]
          unfold failJob
          dsimp only
          refine ⟨_, List.mem_map_of_mem _ hmemr, ?_, ?_⟩
          · rw [hc]
            simp only [Bool.false_eq_true, if_false]
            exact hjidr
          · rw [hc]
            simp only [Bool.false_eq_true, if_false]
            exact hstr
        · rw [hj]
          unfold completeJob
          dsimp only
          refine ⟨_, List.mem_map_of_mem _ hmemr, ?_, ?_⟩
          · rw [hc]
            simp only [Bool.false_eq_true, if_false]
            exact hjidr
          · rw [hc]
            simp only [Bool.false_eq_true, if_false]
            exact hstr
  · rw [if_neg hin]
    exact hinv

/-- One operation moves any job's observed status only along the allowed
graph (and never deletes a job). -/
theorem statusMove_step (s : SysState) (op : Op) (j : String) (hinv : Inv s) :
    statusMove (statusOf s j) (statusOf (step s op) j) := by
  cases op with
  | enqueue cat hor per nid now => exact statusMove_enqueue s cat hor per nid now j
  | claim now => exact statusMove_claim s now j hinv
  | work jobID gen now => exact statusMove_work s jobID gen now j hinv
  | cancel jobID now => exact statusMove_cancel s jobID now j

/-- Every operation preserves the ledger invariant. -/
theorem inv_step (s : SysState) (op : Op) (hinv : Inv s) : Inv (step s op) := by
  cases op with
  | enqueue cat hor per nid now => exact inv_enqueue s cat hor per nid now hinv
  | claim now => exact inv_claim s now hinv
  | work jobID gen now => exact inv_work s jobID gen now hinv
  | cancel jobID now => exact inv_cancel s jobID now hinv

theorem statusOf_run (s : SysState) (j : String) (st : JobStatus) (ops : List Op)
    (hinv : Inv s) (h : statusOf s j = some st) :
    ∃ st2, statusOf (run s ops) j = some st2 ∧ reach st st2 = true := by
  induction ops generalizing s st with
  | nil => exact ⟨st, h, reach_refl st⟩
  | cons op rest ih =>
    have hmove := statusMove_step s op j hinv
    rw [h] at hmove
    obtain ⟨st1, hst1, hedge⟩ := statusMove_some _ _ hmove
    obtain ⟨st2, h2, hr⟩ := ih (step s op) st1 (inv_step s op hinv) hst1
    exact ⟨st2, h2, reach_extend st st1 st2 hedge hr⟩

/-- C4: under the ledger invariant (unique job ids, one owner per claimed
job, in-flight jobs `RUNNING`), every operation of the system — enqueue,
worker claim, the worker goroutine's failure or success finalize, cancel —
moves a job's status only along the graph `PENDING → RUNNING →`
`COMPLETED`/`FAILED` and `PENDING → CANCELLED` (`statusMove`), and along
any sequence of operations a job's status can only evolve within the
reflexive-transitive closure `reach` of that graph: a `COMPLETED`, `FAILED`
or `CANCELLED` job never changes again, and a job that has left `PENDING`
can never become `CANCELLED`. -/
theorem job_status_state_machine (s : SysState) (j : String) (hinv : Inv s) :
    (∀ op, statusMove (statusOf s j) (statusOf (step s op) j)) ∧
    (∀ ops st, statusOf s j = some st →
      ∃ st2, statusOf (run s ops) j = some st2 ∧ reach st st2 = true) :=
  ⟨fun op => statusMove_step s op j hinv,
   fun ops st h => statusOf_run s j st ops hinv h⟩

theorem job_status_state_machine_witness :
    Inv samplePending ∧
    (∀ op, statusMove (statusOf samplePending "j1")
      (statusOf (step samplePending op) "j1")) ∧
    (∀ ops st, statusOf samplePending "j1" = some st →
      ∃ st2, statusOf (run samplePending ops) "j1" = some st2 ∧
        reach st st2 = true) :=
  ⟨by decide,
    (job_status_state_machine samplePending "j1" (by decide)).1,
    (job_status_state_machine samplePending "j1" (by decide)).2⟩

end SalesForecast
